import Mathlib

/-
Shallow embedding of the session/process state-tracking core of the IMU_app
repository (src/IMU_app/database.py, src/IMU_app/session.py,
src/IMU_app/tis_camera_win/__init__.py).

The tinydb document store is modelled at the JSON level:
* a table is a Lean list of records, in insertion order (tinydb assigns
  increasing doc ids and iterates in id order);
* `table.insert(doc)` appends;
* `table.update(transform, cond)` maps the transform over the records
  matching `cond`, in place;
* `table.upsert(doc, cond)` merges `doc`'s fields into every matching
  record, or appends `doc` when nothing matches;
* `table.search(cond)` filters, `table.get(cond)` is `List.find?`,
  `drop_table` empties the list;
* a JSON object used as a dict (the `active_processes` field) is an
  insertion-ordered association list with string keys: JSON serialization
  coerces integer dict keys to their decimal string, which is why
  `add_tis_cam_process`'s `{pid: ...}` is stored under the key `str(pid)`
  (the source itself warns: "The pid in the active_processes dict is a str
  (json format)").

Python exceptions (TypeError from subscripting None, KeyError from a
missing dict key, the explicit `raise ValueError`) are modelled with
`Except PyErr`.
-/

namespace IMUApp

/-- Python exception kinds raised by the modelled code paths. -/
inductive PyErr where
  | typeError
  | keyError
  | valueError
deriving DecidableEq

/-- One entry of an `active_processes` dict: `{pid, action, description}`,
with the extra `rpi_type` key present only on entries created by
`add_active_process_rpi` (modelled as an optional field, `none` meaning the
JSON key is absent). -/
structure ProcEntry where
  action : String
  pid : Int
  description : String
  rpi_type : Option String := none
deriving DecidableEq

/-- A JSON object used as a dict: insertion-ordered association list with
string keys (keys are unique in any dict produced by the code). -/
abbrev ProcDict := List (String × ProcEntry)

/-- Lookup of a key in a JSON dict. -/
def dictLookup (k : String) : ProcDict → Option ProcEntry
  | [] => none
  | (k', v) :: rest => if k' = k then some v else dictLookup k rest

/-- Python `k in d`. -/
def dictMember (k : String) (d : ProcDict) : Bool :=
  (dictLookup k d).isSome

/-- Python `d1.update(d2)`: values of existing keys are overwritten in
place, new keys are appended in `d2`'s order. -/
def dictUpdate (d1 d2 : ProcDict) : ProcDict :=
  (d1.map fun p =>
    match dictLookup p.1 d2 with
    | some v => (p.1, v)
    | none => p)
  ++ d2.filter fun p => (dictLookup p.1 d1).isNone

/-- Python `d.pop(k)` with the `KeyError` swallowed (`pop_element` in
database.py). -/
def dictPop (k : String) (d : ProcDict) : ProcDict :=
  d.filter fun p => p.1 != k

/- ------------------------------------------------------------------ -/
/- tis_camera_win/__init__.py                                          -/
/- ------------------------------------------------------------------ -/

/-- A path separator character (`pathlib` on Windows accepts both). -/
def sepChar (c : Char) : Bool := c == '/' || c == '\\'

/-- `pathlib.Path(s).name`: the final path component (for inputs without
a trailing separator, which is what `iterdir` produces). -/
def pathName (s : String) : String :=
  ⟨(s.data.reverse.takeWhile fun c => !sepChar c).reverse⟩

/-- Python `s.rstrip(chars)`: remove the maximal trailing run of
characters drawn from the set `chars` (a character SET, not a suffix). -/
def rstrip (chars : List Char) (s : String) : String :=
  ⟨(s.data.reverse.dropWhile fun c => chars.contains c).reverse⟩

/-- The character set stripped by `cam_name_from_state_file`:
the characters of the string literal `"_state_file"`. -/
def stripSet : List Char := "_state_file".data

/-- Python `s.endswith(suffix)`. -/
def strEndsWith (s suffix : String) : Bool :=
  List.isSuffixOf suffix.data s.data

/-- `state_file_from_cam_name` (tis_camera_win/__init__.py):
`f"{cam_name}_state_file"`. -/
def state_file_from_cam_name (cam_name : String) : String :=
  cam_name ++ "_state_file"

/-- `cam_name_from_state_file` (tis_camera_win/__init__.py):
`Path(state_file).name.rstrip("_state_file")`. -/
def cam_name_from_state_file (state_file : String) : String :=
  rstrip stripSet (pathName state_file)

/-- `is_stored_state_file` (tis_camera_win/__init__.py), for the `Path`
argument used by `reinitialize_tis_cam_win`: the file NAME must end with
`"_state_file"`. -/
def is_stored_state_file (file_name : String) : Bool :=
  strEndsWith (pathName file_name) "_state_file"

/- ------------------------------------------------------------------ -/
/- Records of the tinydb tables                                        -/
/- ------------------------------------------------------------------ -/

/-- A record of the `tis_cam_win` table, as built by
`initialize_tiscamera`. -/
structure CamEntry where
  cam_name : String
  state_file_path : String
  active_processes : ProcDict
deriving DecidableEq

abbrev CamTable := List CamEntry

/-- A record of the `rpi` table, as built by `initialize_rpi_pwm`: the
`config["pwm"]` payload (`path`, `options`, `ssh`) extended with
`rpi_type`, `active_processes`, `description`, `extended_description`. -/
structure RpiEntry where
  rpi_type : String
  path : String
  options : List (String × String)
  ssh_host : String
  active_processes : ProcDict
  description : String
  extended_description : String
deriving DecidableEq

abbrev RpiTable := List RpiEntry

/-- A record of the `session` table.  The store is schemaless, so every
field the code may read or write is optional; `set_blocks_to_inactive`
can even insert a record carrying only the `running` field. -/
structure Block where
  block_id : Option String := none
  running : Option Bool := none
  started_on : Option String := none
  date : Option String := none
  data_folder : Option String := none
  user_name : Option String := none
  rodent_name : Option String := none
  session_folder : Option String := none
  session_notes : Option String := none
  block_folder : Option String := none
  block_notes : Option String := none
  session_path : Option String := none
  block_path : Option String := none
deriving DecidableEq

/-- A document with no fields set (all JSON keys absent). -/
def Block.empty : Block := {}

abbrev SessionTable := List Block

/-- A record of the `rodents` table. -/
structure Rodent where
  rodent_name : String
  sensor_id : String
deriving DecidableEq

/-- A record of the `users` table. -/
structure User where
  user_name : String
deriving DecidableEq

/-- The whole document store: the five named collections. -/
structure DB where
  session : SessionTable
  rpi : RpiTable
  tis_cam_win : CamTable
  rodents : List Rodent
  users : List User
deriving DecidableEq

/-- The `config["pwm"]` payload read by `initialize_rpi_pwm`. -/
structure PwmConfig where
  path : String
  options : List (String × String)
  ssh_host : String
deriving DecidableEq

/-- The parts of config.json the reinitialization path reads: the pwm
payload and the contents (in iteration order) of the camera state-file
folder `config["tis_camera_win"]["saving_path"]`. -/
structure Config where
  pwm : PwmConfig
  state_files : List String
deriving DecidableEq

/- ------------------------------------------------------------------ -/
/- Session handling (database.py)                                      -/
/- ------------------------------------------------------------------ -/

/-- `has_session`: `len(self.session_table) > 0`. -/
def has_session (t : SessionTable) : Bool :=
  t.length > 0

/-- `has_active_block`: `contains(where("running") == True)`. -/
def has_active_block (t : SessionTable) : Bool :=
  t.any fun b => b.running == some true

/-- The branch of `set_blocks_to_inactive` under the `has_session` guard:
`session_table.upsert({"running": False}, Q.running.exists())` — update
every record possessing a `running` field, or, when no record has one,
insert the bare document `{"running": False}`. -/
def upsertRunningFalse (t : SessionTable) : SessionTable :=
  if t.any (fun b => b.running.isSome) then
    t.map fun b => if b.running.isSome then { b with running := some false } else b
  else
    t ++ [{ Block.empty with running := some false }]

/-- `set_blocks_to_inactive`: no-op unless `has_session`. -/
def set_blocks_to_inactive (t : SessionTable) : SessionTable :=
  if has_session t then upsertRunningFalse t else t

/-- `insert_active_block`: set all other blocks to inactive, then insert
the caller-supplied block. -/
def insert_active_block (b : Block) (t : SessionTable) : SessionTable :=
  set_blocks_to_inactive t ++ [b]

/-- The record returned by `get_session_properties`. -/
structure SessionProps where
  date : String
  data_folder : String
  user_name : String
  rodent_name : String
  session_folder : String
  session_notes : String
  session_path : String
deriving DecidableEq

/-- Python `doc[k]`: raises `KeyError` when the key is absent. -/
def reqField {α : Type} (v : Option α) : Except PyErr α :=
  match v with
  | some x => Except.ok x
  | none => Except.error PyErr.keyError

/-- `get_session_properties`: fetch the block with `block_id == "01"` and
copy the seven session-level fields out of it.  When no such block exists
`get` returns `None` and the subscript `first_block[k]` raises
`TypeError`. -/
def get_session_properties (t : SessionTable) : Except PyErr SessionProps :=
  match t.find? (fun b => b.block_id == some "01") with
  | none => Except.error PyErr.typeError
  | some b => do
      let d ← reqField b.date
      let df ← reqField b.data_folder
      let un ← reqField b.user_name
      let rn ← reqField b.rodent_name
      let sf ← reqField b.session_folder
      let sn ← reqField b.session_notes
      let sp ← reqField b.session_path
      return { date := d, data_folder := df, user_name := un, rodent_name := rn,
               session_folder := sf, session_notes := sn, session_path := sp }

/-- `get_active_block`: `session_table.get(where("running") == True)`. -/
def get_active_block (t : SessionTable) : Option Block :=
  t.find? fun b => b.running == some true

/-- `get_active_block_path`: `Path(active_block["block_path"])` when an
active block exists, else `raise ValueError`. -/
def get_active_block_path (t : SessionTable) : Except PyErr String :=
  match get_active_block t with
  | some b =>
      match b.block_path with
      | some p => Except.ok p
      | none => Except.error PyErr.keyError
  | none => Except.error PyErr.valueError

/- ------------------------------------------------------------------ -/
/- Process handling (database.py)                                      -/
/- ------------------------------------------------------------------ -/

/-- `remove_local_process_from_table` restricted to the `tis_cam_win`
table (the only name in the local-process table list): pop `str(pid)` from
the `active_processes` dict of every record whose dict contains it. -/
def remove_local_process_from_table (pid : Int) (t : CamTable) : CamTable :=
  t.map fun c =>
    if dictMember (toString pid) c.active_processes then
      { c with active_processes := dictPop (toString pid) c.active_processes }
    else c

/-- `get_processes_from_table`: union (`dict.update`) of the
`active_processes` dicts of the records whose dict is non-empty, in table
order. -/
def get_processes_from_table (t : CamTable) : ProcDict :=
  (t.filter fun c => !c.active_processes.isEmpty).foldl
    (fun acc c => dictUpdate acc c.active_processes) []

/- ------------------------------------------------------------------ -/
/- TIS camera handling (database.py)                                   -/
/- ------------------------------------------------------------------ -/

/-- The camera record `initialize_tiscamera` builds from a state-file
path. -/
def mkCamEntry (state_file_path : String) : CamEntry :=
  { cam_name := cam_name_from_state_file state_file_path,
    state_file_path := state_file_path,
    active_processes := [] }

/-- `tis_cam_win_table.upsert(cam_entry, where("cam_name") == cam_name)`:
replace the fields of every record with the same `cam_name` (the entry
carries every field, so this is a full replacement), or append. -/
def upsertCam (e : CamEntry) (t : CamTable) : CamTable :=
  if t.any (fun c => c.cam_name == e.cam_name) then
    t.map fun c => if c.cam_name == e.cam_name then e else c
  else
    t ++ [e]

/-- `initialize_tiscamera` (named `initTisCamera` here): insert/refresh a
camera record when the file name follows the state-file convention,
silently skip the file otherwise. -/
def initTisCamera (state_file_path : String) (t : CamTable) : CamTable :=
  if is_stored_state_file state_file_path then
    upsertCam (mkCamEntry state_file_path) t
  else t

/-- `get_available_cameras`: `search(where("active_processes") == {})`. -/
def get_available_cameras (t : CamTable) : CamTable :=
  t.filter fun c => c.active_processes.isEmpty

/-- `get_state_file_path`: `get(where("cam_name") == cam_name)` followed
by the subscript `cam_entry["state_file_path"]`, which raises `TypeError`
when the lookup returned `None`. -/
def get_state_file_path (cam_name : String) (t : CamTable) : Except PyErr String :=
  match t.find? (fun c => c.cam_name == cam_name) with
  | none => Except.error PyErr.typeError
  | some c => Except.ok c.state_file_path

/-- `add_tis_cam_process`: merge `{pid: {"action", "pid", "description"}}`
into the selected camera's `active_processes` (the integer dict key is
stored as `str(pid)` by JSON serialization). -/
def add_tis_cam_process (cam_name : String) (action : String) (pid : Int)
    (t : CamTable) : CamTable :=
  let description :=
    "TIS Camera " ++ action ++ " on " ++ cam_name ++ " (pid: " ++ toString pid ++ ")"
  let content : ProcEntry := { action := action, pid := pid, description := description }
  t.map fun c =>
    if c.cam_name == cam_name then
      { c with active_processes := dictUpdate c.active_processes [(toString pid, content)] }
    else c

/- ------------------------------------------------------------------ -/
/- RPI handling (database.py)                                          -/
/- ------------------------------------------------------------------ -/

/-- The `', '.join(f'{k}: {v}' ...)` listing of the pwm options. -/
def optionsStr (options : List (String × String)) : String :=
  String.intercalate ", " (options.map fun kv => kv.1 ++ ": " ++ kv.2)

/-- The record `initialize_rpi_pwm` builds from `config["pwm"]`. -/
def pwmEntry (cfg : PwmConfig) : RpiEntry :=
  { rpi_type := "pwm",
    path := cfg.path,
    options := cfg.options,
    ssh_host := cfg.ssh_host,
    active_processes := [],
    description := "PWM RPI",
    extended_description :=
      "Host: " ++ cfg.ssh_host ++ "\n Parameters: " ++ optionsStr cfg.options }

/-- `initialize_rpi_pwm` (named `initRpiPwm` here): `rpi_table.insert(...)`
— a plain insert (append), NOT an upsert. -/
def initRpiPwm (cfg : PwmConfig) (t : RpiTable) : RpiTable :=
  t ++ [pwmEntry cfg]

/-- `add_active_process_rpi`: merge
`{str(pid): {"pid", "action", "description", "rpi_type"}}` into the
`active_processes` of every record matching the rpi type. -/
def add_active_process_rpi (rpi_type : String) (pid : Int) (description : String)
    (t : RpiTable) : RpiTable :=
  let props : ProcEntry :=
    { action := rpi_type, pid := pid, description := description,
      rpi_type := some rpi_type }
  t.map fun r =>
    if r.rpi_type == rpi_type then
      { r with active_processes := dictUpdate r.active_processes [(toString pid, props)] }
    else r

/-- `remove_active_process_rpi`: pop `str(pid)` from the
`active_processes` of every record matching the rpi type. -/
def remove_active_process_rpi (rpi_type : String) (pid : Int) (t : RpiTable) : RpiTable :=
  t.map fun r =>
    if r.rpi_type == rpi_type then
      { r with active_processes := dictPop (toString pid) r.active_processes }
    else r

/- ------------------------------------------------------------------ -/
/- Reinitialization (database.py)                                      -/
/- ------------------------------------------------------------------ -/

/-- `reinitialize_session` (named `reinitSession` here):
`drop_table("session")`. -/
def reinitSession (db : DB) : DB :=
  { db with session := [] }

/-- `reinitialize_rpi` (named `reinitRpi` here): `drop_table("rpi")` then
`initialize_rpi_pwm()`. -/
def reinitRpi (cfg : PwmConfig) (db : DB) : DB :=
  { db with rpi := initRpiPwm cfg [] }

/-- `reinitialize_tis_cam_win` (named `reinitTisCamWin` here):
`drop_table("tis_cam_win")` then `initialize_tiscamera(p)` for every file
`p` of the configured state-file folder, in iteration order. -/
def reinitTisCamWin (files : List String) (db : DB) : DB :=
  { db with tis_cam_win := files.foldl (fun t p => initTisCamera p t) [] }

/-- `reinitialize` (named `reinit` here): optionally save the current
store to the session folder (an external file copy that touches no
collection), then reinitialize the session, rpi and tis_cam_win tables in
that order. -/
def reinit (cfg : Config) (db : DB) : DB :=
  reinitTisCamWin cfg.state_files (reinitRpi cfg.pwm (reinitSession db))

/-- Number of blocks recorded as running. -/
def countRunning (t : SessionTable) : Nat :=
  (t.filter fun b => b.running == some true).length

/- ------------------------------------------------------------------ -/
/- Concrete sample data for the scenario theorems and witnesses        -/
/- ------------------------------------------------------------------ -/

/-- First block of the two-block scenario, as built by
`create_new_session` in main.py. -/
def demoB1 : Block :=
  { block_id := some "01", running := some true,
    started_on := some "20210101-10:00:00", date := some "20210101",
    data_folder := some "D:/data", user_name := some "romain",
    rodent_name := some "rat1", session_folder := some "session1",
    session_notes := some "", block_folder := some "block1",
    block_notes := some "", session_path := some "D:/data/session1",
    block_path := some "D:/data/session1/block1" }

/-- Second block of the two-block scenario, as built by
`create_new_block` in main.py. -/
def demoB2 : Block :=
  { demoB1 with
    block_id := some "02"
    block_folder := some "block2"
    block_path := some "D:/data/session1/block2"
    started_on := some "20210101-11:00:00" }

/-- The session table after inserting block "01" then block "02", both
submitted with `running = true`, starting from an empty table. -/
def demoSession : SessionTable :=
  insert_active_block demoB2 (insert_active_block demoB1 [])

/-- A sample `config["pwm"]` payload. -/
def demoPwmCfg : PwmConfig :=
  { path := "/home/pi/pwm.py",
    options := [("frequency", "30"), ("duty_cycle", "50")],
    ssh_host := "raspberrypi" }

/-- A sample registered camera with no running process. -/
def witnessCam : CamEntry :=
  { cam_name := "cam1", state_file_path := "C:/states/cam1_state_file",
    active_processes := [] }

/-- A second sample registered camera. -/
def witnessCam2 : CamEntry :=
  { cam_name := "cam2", state_file_path := "C:/states/cam2_state_file",
    active_processes := [] }

/-- A sample registered pwm RPI with no running process. -/
def witnessRpi : RpiEntry := pwmEntry demoPwmCfg

end IMUApp

/- ==================================================================== -/
/- Theorems                                                             -/
/- ==================================================================== -/

namespace IMUApp

/-- Unfolding lemma: membership in a cons dict. -/
theorem dictMember_cons (k k' : String) (v : ProcEntry) (d : ProcDict) :
    dictMember k ((k', v) :: d) = if k' = k then true else dictMember k d := by
  by_cases h : k' = k
  · simp [dictMember, dictLookup, h]
  · simp [dictMember, dictLookup, h]

/-- A dict key is absent exactly when no entry carries it. -/
theorem dictLookup_eq_none_iff (k : String) (d : ProcDict) :
    dictLookup k d = none ↔ ∀ p ∈ d, p.1 ≠ k := by
  induction d with
  | nil => simp [dictLookup]
  | cons p rest ih =>
      obtain ⟨k', v⟩ := p
      simp only [dictLookup, List.mem_cons]
      by_cases h : k' = k
      · simp [h]
      · simp only [if_neg h, ih]
        constructor
        · intro hall q hq
          rcases hq with hq | hq
          · subst hq; exact h
          · exact hall q hq
        · intro hall q hq
          exact hall q (Or.inr hq)

/-- `dictMember` is `false` exactly when the lookup misses. -/
theorem dictMember_eq_false_iff (k : String) (d : ProcDict) :
    dictMember k d = false ↔ dictLookup k d = none := by
  unfold dictMember
  cases dictLookup k d <;> simp

/-- Updating with a single fresh key is an append. -/
theorem dictUpdate_single_of_not_mem (k : String) (v : ProcEntry) (d : ProcDict)
    (h : dictLookup k d = none) :
    dictUpdate d [(k, v)] = d ++ [(k, v)] := by
  unfold dictUpdate
  have hkeys := (dictLookup_eq_none_iff k d).mp h
  have hmap : (d.map fun p =>
      match dictLookup p.1 [(k, v)] with
      | some w => (p.1, w)
      | none => p) = d.map id := by
    apply List.map_congr_left
    intro p hp
    have hne : ¬k = p.1 := fun hkp => hkeys p hp hkp.symm
    simp [dictLookup, hne]
  rw [hmap, List.map_id]
  congr 1
  simp [h]

/-- The key just appended is a member. -/
theorem dictMember_append_self (k : String) (v : ProcEntry) (d : ProcDict) :
    dictMember k (d ++ [(k, v)]) = true := by
  induction d with
  | nil => simp [dictMember_cons]
  | cons p rest ih =>
      obtain ⟨k', w⟩ := p
      rw [List.cons_append, dictMember_cons]
      split <;> simp [ih]

/-- Popping the key just appended restores the dict, provided the key was
absent before. -/
theorem dictPop_append_self (k : String) (v : ProcEntry) (d : ProcDict)
    (h : dictLookup k d = none) :
    dictPop k (d ++ [(k, v)]) = d := by
  unfold dictPop
  rw [List.filter_append]
  have hkeys := (dictLookup_eq_none_iff k d).mp h
  have h1 : d.filter (fun p => p.1 != k) = d := by
    rw [List.filter_eq_self]
    intro p hp
    simpa using hkeys p hp
  have h2 : ([(k, v)] : ProcDict).filter (fun p => p.1 != k) = [] := by
    simp
  rw [h1, h2, List.append_nil]

/-- Attach-then-detach round trip on a single dict. -/
theorem dictPop_dictUpdate_roundtrip (k : String) (v : ProcEntry) (d : ProcDict)
    (h : dictMember k d = false) :
    dictPop k (dictUpdate d [(k, v)]) = d := by
  rw [dictMember_eq_false_iff] at h
  rw [dictUpdate_single_of_not_mem k v d h, dictPop_append_self k v d h]

/-- Helper for C1: a session table whose blocks are all recorded as not
running has `countRunning` zero. -/
theorem countRunning_eq_zero_of (t : SessionTable)
    (h : ∀ b ∈ t, b.running ≠ some true) : countRunning t = 0 := by
  unfold countRunning
  rw [List.length_eq_zero, List.filter_eq_nil_iff]
  intro b hb
  simpa using h b hb

/-- `countRunning` distributes over append. -/
theorem countRunning_append (t1 t2 : SessionTable) :
    countRunning (t1 ++ t2) = countRunning t1 + countRunning t2 := by
  unfold countRunning
  rw [List.filter_append, List.length_append]

/-- After `set_blocks_to_inactive` no block is recorded as running. -/
theorem countRunning_set_blocks_to_inactive (t : SessionTable) :
    countRunning (set_blocks_to_inactive t) = 0 := by
  unfold set_blocks_to_inactive
  split
  · unfold upsertRunningFalse
    split
    · apply countRunning_eq_zero_of
      intro b hb
      rw [List.mem_map] at hb
      obtain ⟨a, _, ha⟩ := hb
      subst ha
      by_cases hsome : a.running.isSome
      · simp [hsome]
      · rw [if_neg hsome]
        rw [Option.not_isSome_iff_eq_none] at hsome
        simp [hsome]
    · next hnone =>
        apply countRunning_eq_zero_of
        intro b hb
        rw [List.mem_append] at hb
        rcases hb with hb | hb
        · rw [Bool.not_eq_true, List.any_eq_false] at hnone
          have := hnone b hb
          rw [Option.not_isSome_iff_eq_none] at this
          simp [this]
        · rw [List.mem_singleton] at hb
          subst hb
          simp [Block.empty]
  · next hns =>
      unfold has_session at hns
      rw [Bool.not_eq_true, decide_eq_false_iff_not] at hns
      have hlen : t.length = 0 := by omega
      rw [List.length_eq_zero] at hlen
      subst hlen
      rfl

/-- A single `insert_active_block` leaves at most one running block. -/
theorem countRunning_insert_le_one (b : Block) (t : SessionTable) :
    countRunning (insert_active_block b t) ≤ 1 := by
  unfold insert_active_block
  rw [countRunning_append, countRunning_set_blocks_to_inactive, Nat.zero_add]
  unfold countRunning
  cases hb : (b.running == some true) <;> simp [List.filter_cons, hb]

/-- Helper for C1: folding further inserts keeps the bound. -/
theorem countRunning_foldl_insert_le_one (bs : List Block) (s : SessionTable)
    (hs : countRunning s ≤ 1) :
    countRunning (bs.foldl (fun acc blk => insert_active_block blk acc) s) ≤ 1 := by
  induction bs generalizing s with
  | nil => simpa using hs
  | cons b rest ih =>
      rw [List.foldl_cons]
      exact ih _ (countRunning_insert_le_one b s)

/-- C1: for every sequence of `insert_active_block` calls starting from any
session-table state, at most one block in the session table has
`running = true` after each call (each call first sets `running = false`
on every existing block carrying a `running` field, then inserts the new
block). -/
theorem c1_single_active_block (t : SessionTable) (b : Block) (bs : List Block) :
    countRunning ((b :: bs).foldl (fun acc blk => insert_active_block blk acc) t) ≤ 1 := by
  rw [List.foldl_cons]
  exact countRunning_foldl_insert_le_one bs _ (countRunning_insert_le_one b t)

/-- C5: `get_session_properties` with no block "01" and
`get_active_block_path` with no active block both fail loudly with a
raised error (TypeError from subscripting `None`, explicit ValueError)
rather than returning an absence value. -/
theorem c5_fail_loudly (t u : SessionTable)
    (h1 : ∀ b ∈ t, b.block_id ≠ some "01")
    (h2 : has_active_block u = false) :
    get_session_properties t = Except.error PyErr.typeError
    ∧ get_active_block_path u = Except.error PyErr.valueError := by
  constructor
  · unfold get_session_properties
    have hfind : t.find? (fun b => b.block_id == some "01") = none := by
      rw [List.find?_eq_none]
      intro b hb
      simpa using h1 b hb
    rw [hfind]
  · unfold get_active_block_path get_active_block
    have hfind : u.find? (fun b => b.running == some true) = none := by
      rw [List.find?_eq_none]
      intro b hb
      unfold has_active_block at h2
      rw [List.any_eq_false] at h2
      exact h2 b hb
    rw [hfind]

/-- Witness for C5 at the empty session table. -/
theorem c5_fail_loudly_witness :
    get_session_properties [] = Except.error PyErr.typeError
    ∧ get_active_block_path [] = Except.error PyErr.valueError :=
  c5_fail_loudly [] [] (by simp) rfl

/-- C10: looking up the state file of an unregistered camera name is a
normal not-found outcome at the table level (`get` returns `None`), but
`get_state_file_path` subscripts that result and raises instead of
returning an absence value. -/
theorem c10_missing_camera_raises (t : CamTable) (n : String)
    (h : ∀ c ∈ t, c.cam_name ≠ n) :
    t.find? (fun c => c.cam_name == n) = none
    ∧ get_state_file_path n t = Except.error PyErr.typeError := by
  have hfind : t.find? (fun c => c.cam_name == n) = none := by
    rw [List.find?_eq_none]
    intro c hc
    simpa using h c hc
  refine ⟨hfind, ?_⟩
  unfold get_state_file_path
  rw [hfind]

/-- Witness for C10 at the empty camera table. -/
theorem c10_missing_camera_raises_witness :
    (([] : CamTable).find? (fun c => c.cam_name == "cam1") = none)
    ∧ get_state_file_path "cam1" [] = Except.error PyErr.typeError :=
  c10_missing_camera_raises [] "cam1" (by simp)

/-- C8: `reinitialize` drops and rebuilds only the session, rpi and camera
collections; the rodents and users collections are left unchanged for
every store state. -/
theorem c8_reinit_frame (cfg : Config) (db : DB) :
    (reinit cfg db).rodents = db.rodents ∧ (reinit cfg db).users = db.users :=
  ⟨rfl, rfl⟩

/-- Counterexample for C3: `initialize_rpi_pwm` does a plain insert, so
calling it twice in a row (here: the second call runs on the state left by
the first, starting from an empty rpi table) leaves two records for the
"pwm" role, not one. -/
theorem c3_insert_twice_duplicates :
    ((initRpiPwm demoPwmCfg (initRpiPwm demoPwmCfg [])).filter
      (fun r => r.rpi_type == "pwm")).length = 2 := by
  rfl

/-- C3 (amended): `initialize_rpi_pwm` inserts (rather than upserts) a pwm
record with empty `active_processes`; uniqueness of the role holds because
`reinitialize_rpi` drops the table before the insert — for every store
state it leaves exactly one "pwm" record, with an empty process map. -/
theorem c3_reinit_single_pwm (cfg : PwmConfig) (db : DB) :
    ((reinitRpi cfg db).rpi.filter (fun r => r.rpi_type == "pwm")).length = 1
    ∧ ∀ r ∈ (reinitRpi cfg db).rpi, r.active_processes = [] := by
  constructor
  · simp [reinitRpi, initRpiPwm, List.filter_cons, pwmEntry]
  · intro r hr
    simp only [reinitRpi, initRpiPwm, List.nil_append, List.mem_singleton] at hr
    subst hr
    rfl

/-- Two stacked `List.map`s read through `getElem?`. -/
theorem getElem?_map_map {α : Type} (f g : α → α) (t : List α) (i : Nat)
    (hi : i < t.length) :
    ((t.map f).map g)[i]? = some (g (f t[i])) := by
  rw [List.getElem?_map, List.getElem?_map, List.getElem?_eq_getElem hi]
  rfl

/-- Membership distributes over dict append. -/
theorem dictMember_append (k : String) (a b : ProcDict) :
    dictMember k (a ++ b) = (dictMember k a || dictMember k b) := by
  induction a with
  | nil => simp [dictMember, dictLookup]
  | cons p rest ih =>
      obtain ⟨k', v⟩ := p
      rw [List.cons_append, dictMember_cons, dictMember_cons, ih]
      split <;> simp

/-- A key-preserving map leaves dict membership unchanged. -/
theorem dictMember_map_keyfix (k : String) (d : ProcDict)
    (f : String × ProcEntry → String × ProcEntry) (hf : ∀ p, (f p).1 = p.1) :
    dictMember k (d.map f) = dictMember k d := by
  induction d with
  | nil => rfl
  | cons p rest ih =>
      obtain ⟨k', v⟩ := p
      rw [List.map_cons]
      have h1 := hf (k', v)
      rcases hfp : f (k', v) with ⟨k2, v2⟩
      rw [hfp] at h1
      simp only at h1
      rw [dictMember_cons, dictMember_cons, ih, h1]

/-- Filtering with a predicate that keeps every entry carrying key `k`
leaves membership of `k` unchanged. -/
theorem dictMember_filter_keymem (k : String) (q : String × ProcEntry → Bool)
    (d : ProcDict) (hq : ∀ p ∈ d, p.1 = k → q p = true) :
    dictMember k (d.filter q) = dictMember k d := by
  induction d with
  | nil => rfl
  | cons p rest ih =>
      obtain ⟨k', v⟩ := p
      by_cases hk : k' = k
      · have hqp : q (k', v) = true := hq (k', v) (List.mem_cons_self _ _) hk
        rw [List.filter_cons_of_pos hqp, dictMember_cons, dictMember_cons,
          if_pos hk, if_pos hk]
      · rw [dictMember_cons, if_neg hk]
        have hrest : ∀ p ∈ rest, p.1 = k → q p = true :=
          fun p hp hpk => hq p (List.mem_cons_of_mem _ hp) hpk
        by_cases hqp : q (k', v) = true
        · rw [List.filter_cons_of_pos hqp, dictMember_cons, if_neg hk]
          exact ih hrest
        · rw [List.filter_cons_of_neg (by simpa using hqp)]
          exact ih hrest

/-- `dict.update` membership is the disjunction of the memberships. -/
theorem dictMember_update_or (k : String) (d1 d2 : ProcDict) :
    dictMember k (dictUpdate d1 d2) = (dictMember k d1 || dictMember k d2) := by
  unfold dictUpdate
  rw [dictMember_append]
  have hmap : dictMember k (d1.map fun p =>
      match dictLookup p.1 d2 with
      | some v => (p.1, v)
      | none => p) = dictMember k d1 := by
    apply dictMember_map_keyfix
    intro p
    rcases h : dictLookup p.1 d2 with _ | w <;> simp [h]
  rw [hmap]
  cases hm : dictMember k d1
  · have hnone : dictLookup k d1 = none := (dictMember_eq_false_iff k d1).mp hm
    have hfilter : dictMember k (d2.filter fun p => (dictLookup p.1 d1).isNone)
        = dictMember k d2 := by
      apply dictMember_filter_keymem
      intro p _ hpk
      rw [hpk, hnone]
      rfl
    rw [hfilter, Bool.false_or]
  · rw [Bool.true_or, Bool.true_or]

/-- A dict holding a key is non-empty. -/
theorem dictMember_not_isEmpty (k : String) (d : ProcDict)
    (h : dictMember k d = true) : (!d.isEmpty) = true := by
  cases d
  · simp [dictMember, dictLookup] at h
  · rfl

/-- Folding `dict.update` over a list of camera records keeps every key
present in the accumulator or in some record. -/
theorem foldl_update_member (l : List CamEntry) (k : String) : ∀ acc : ProcDict,
    (dictMember k acc = true ∨ ∃ c ∈ l, dictMember k c.active_processes = true) →
    dictMember k (l.foldl (fun a c => dictUpdate a c.active_processes) acc) = true := by
  induction l with
  | nil =>
      intro acc h
      rcases h with h | h
      · exact h
      · simp at h
  | cons c rest ih =>
      intro acc h
      rw [List.foldl_cons]
      apply ih
      rcases h with h | h
      · left
        rw [dictMember_update_or, h, Bool.true_or]
      · rcases h with ⟨c', hc', hm⟩
        rcases List.mem_cons.mp hc' with rfl | hc'
        · left
          rw [dictMember_update_or, hm, Bool.or_true]
        · right
          exact ⟨c', hc', hm⟩

/-- Any pid key held by some record of the table shows up in the
aggregate of `get_processes_from_table`. -/
theorem agg_member (t : CamTable) (k : String)
    (h : ∃ c ∈ t, dictMember k c.active_processes = true) :
    dictMember k (get_processes_from_table t) = true := by
  obtain ⟨c, hc, hm⟩ := h
  unfold get_processes_from_table
  apply foldl_update_member
  right
  refine ⟨c, ?_, hm⟩
  rw [List.mem_filter]
  exact ⟨hc, dictMember_not_isEmpty k _ hm⟩

/-- Attaching a pid to a camera present in the table produces a record
holding that pid. -/
theorem add_proc_gains_member (t : CamTable) (nm act : String) (pid : Int)
    (h : ∃ c ∈ t, c.cam_name = nm) :
    ∃ c ∈ add_tis_cam_process nm act pid t,
      dictMember (toString pid) c.active_processes = true := by
  obtain ⟨c, hc, hname⟩ := h
  simp only [add_tis_cam_process]
  refine ⟨_, List.mem_map_of_mem _ hc, ?_⟩
  have hcond : (c.cam_name == nm) = true := by rw [hname]; exact beq_self_eq_true nm
  rw [if_pos hcond]
  rw [dictMember_update_or, dictMember_cons]
  simp

/-- Attaching a pid never removes another pid key from any record. -/
theorem add_proc_keeps_member (t : CamTable) (nm act : String) (pid : Int)
    (k : String) (h : ∃ c ∈ t, dictMember k c.active_processes = true) :
    ∃ c ∈ add_tis_cam_process nm act pid t,
      dictMember k c.active_processes = true := by
  obtain ⟨c, hc, hm⟩ := h
  simp only [add_tis_cam_process]
  refine ⟨_, List.mem_map_of_mem _ hc, ?_⟩
  by_cases hcond : (c.cam_name == nm) = true
  · rw [if_pos hcond]
    rw [dictMember_update_or, hm, Bool.true_or]
  · rw [if_neg hcond]
    exact hm

/-- Attaching a pid never changes any record's name. -/
theorem add_proc_keeps_name (t : CamTable) (nm act : String) (pid : Int)
    (n : String) (h : ∃ c ∈ t, c.cam_name = n) :
    ∃ c ∈ add_tis_cam_process nm act pid t, c.cam_name = n := by
  obtain ⟨c, hc, hname⟩ := h
  simp only [add_tis_cam_process]
  refine ⟨_, List.mem_map_of_mem _ hc, ?_⟩
  by_cases hcond : (c.cam_name == nm) = true
  · rw [if_pos hcond]
    exact hname
  · rw [if_neg hcond]
    exact hname

/-- Attaches to two distinct cameras commute on the table. -/
theorem add_proc_comm (t : CamTable) (a b act1 act2 : String) (p1 p2 : Int)
    (hab : a ≠ b) :
    add_tis_cam_process b act2 p2 (add_tis_cam_process a act1 p1 t)
      = add_tis_cam_process a act1 p1 (add_tis_cam_process b act2 p2 t) := by
  simp only [add_tis_cam_process]
  rw [List.map_map, List.map_map]
  apply List.map_congr_left
  intro c _
  simp only [Function.comp]
  by_cases hca : (c.cam_name == a) = true
  · have hcb : (c.cam_name == b) = false := by
      rw [beq_eq_false_iff_ne]
      rw [beq_iff_eq] at hca
      rw [hca]
      exact hab
    simp [hca, hcb]
  · by_cases hcb : (c.cam_name == b) = true
    · simp [hca, hcb]
    · simp [hca, hcb]

/-- C4: attaching a pid that is not already present in a device's
`active_processes` map and then detaching that same pid restores the
device's map to its pre-attach value, both for cameras
(`add_tis_cam_process` / `remove_local_process_from_table`) and for RPIs
(`add_active_process_rpi` / `remove_active_process_rpi`); the record is
addressed by its position, which both operations preserve. -/
theorem c4_attach_detach_roundtrip (tc : CamTable) (tr : RpiTable)
    (cname rtype act desc : String) (pc pr : Int) (i j : Nat)
    (hi : i < tc.length) (hj : j < tr.length)
    (hci : tc[i].cam_name = cname)
    (hpi : dictMember (toString pc) tc[i].active_processes = false)
    (hrj : tr[j].rpi_type = rtype)
    (hpj : dictMember (toString pr) tr[j].active_processes = false) :
    ((remove_local_process_from_table pc (add_tis_cam_process cname act pc tc))[i]?).map
        (fun c => c.active_processes) = some tc[i].active_processes
    ∧ ((remove_active_process_rpi rtype pr (add_active_process_rpi rtype pr desc tr))[j]?).map
        (fun r => r.active_processes) = some tr[j].active_processes := by
  constructor
  · simp only [add_tis_cam_process, remove_local_process_from_table]
    rw [getElem?_map_map _ _ _ _ hi]
    have hcond : (tc[i].cam_name == cname) = true := by
      rw [hci]; exact beq_self_eq_true cname
    rw [if_pos hcond]
    have hnone : dictLookup (toString pc) tc[i].active_processes = none :=
      (dictMember_eq_false_iff _ _).mp hpi
    dsimp only
    rw [dictUpdate_single_of_not_mem _ _ _ hnone]
    rw [dictMember_append_self]
    rw [if_pos rfl]
    rw [dictPop_append_self _ _ _ hnone]
    rfl
  · simp only [add_active_process_rpi, remove_active_process_rpi]
    rw [getElem?_map_map _ _ _ _ hj]
    have hcond : (tr[j].rpi_type == rtype) = true := by
      rw [hrj]; exact beq_self_eq_true rtype
    rw [if_pos hcond]
    have hnone : dictLookup (toString pr) tr[j].active_processes = none :=
      (dictMember_eq_false_iff _ _).mp hpj
    rw [dictUpdate_single_of_not_mem _ _ _ hnone]
    rw [if_pos hcond]
    rw [dictPop_append_self _ _ _ hnone]
    rfl

/-- Witness for C4: pid 7 round trip on camera "cam1", pid 9 round trip on
the pwm RPI, both starting with an empty process map. -/
theorem c4_attach_detach_roundtrip_witness :
    ((remove_local_process_from_table 7 (add_tis_cam_process "cam1" "preview" 7 [witnessCam]))[0]?).map
        (fun c => c.active_processes) = some witnessCam.active_processes
    ∧ ((remove_active_process_rpi "pwm" 9 (add_active_process_rpi "pwm" 9 "PWM trigger" [witnessRpi]))[0]?).map
        (fun r => r.active_processes) = some witnessRpi.active_processes :=
  c4_attach_detach_roundtrip [witnessCam] [witnessRpi] "cam1" "pwm" "preview" "PWM trigger"
    7 9 0 0 (by decide) (by decide) rfl rfl rfl rfl

/-- C7: with two distinct cameras A and B both present in the table,
attaching pid 7 to A and pid 9 to B yields the same table in either attach
order, and `get_processes_from_table` then contains both pid keys. -/
theorem c7_aggregate_two_devices (t : CamTable) (a b act1 act2 : String)
    (hab : a ≠ b) (ha : ∃ c ∈ t, c.cam_name = a) (hb : ∃ c ∈ t, c.cam_name = b) :
    add_tis_cam_process b act2 9 (add_tis_cam_process a act1 7 t)
      = add_tis_cam_process a act1 7 (add_tis_cam_process b act2 9 t)
    ∧ dictMember "7" (get_processes_from_table
        (add_tis_cam_process b act2 9 (add_tis_cam_process a act1 7 t))) = true
    ∧ dictMember "9" (get_processes_from_table
        (add_tis_cam_process b act2 9 (add_tis_cam_process a act1 7 t))) = true := by
  have h7 : toString (7 : Int) = "7" := rfl
  have h9 : toString (9 : Int) = "9" := rfl
  refine ⟨add_proc_comm t a b act1 act2 7 9 hab, ?_, ?_⟩
  · apply agg_member
    have h1 := add_proc_gains_member t a act1 7 ha
    rw [h7] at h1
    exact add_proc_keeps_member _ b act2 9 "7" h1
  · apply agg_member
    have h1 := add_proc_gains_member (add_tis_cam_process a act1 7 t) b act2 9
      (add_proc_keeps_name t a act1 7 b hb)
    rw [h9] at h1
    exact h1

/-- Witness for C7 on a table holding cameras "cam1" and "cam2". -/
theorem c7_aggregate_two_devices_witness :
    add_tis_cam_process "cam2" "record" 9
        (add_tis_cam_process "cam1" "preview" 7 [witnessCam, witnessCam2])
      = add_tis_cam_process "cam1" "preview" 7
        (add_tis_cam_process "cam2" "record" 9 [witnessCam, witnessCam2])
    ∧ dictMember "7" (get_processes_from_table (add_tis_cam_process "cam2" "record" 9
        (add_tis_cam_process "cam1" "preview" 7 [witnessCam, witnessCam2]))) = true
    ∧ dictMember "9" (get_processes_from_table (add_tis_cam_process "cam2" "record" 9
        (add_tis_cam_process "cam1" "preview" 7 [witnessCam, witnessCam2]))) = true :=
  c7_aggregate_two_devices [witnessCam, witnessCam2] "cam1" "cam2" "preview" "record"
    (by decide) (by decide) (by decide)

/-- Every record of an upserted table is an old record or the upserted
entry. -/
theorem upsertCam_mem (e : CamEntry) (t : CamTable) (c : CamEntry)
    (hc : c ∈ upsertCam e t) : c ∈ t ∨ c = e := by
  unfold upsertCam at hc
  split at hc
  · rw [List.mem_map] at hc
    obtain ⟨x, hx, hfx⟩ := hc
    by_cases hbeq : (x.cam_name == e.cam_name) = true
    · rw [if_pos hbeq] at hfx
      right
      exact hfx.symm
    · rw [if_neg hbeq] at hfx
      left
      exact hfx ▸ hx
  · rw [List.mem_append] at hc
    rcases hc with hc | hc
    · left; exact hc
    · right; exact List.mem_singleton.mp hc

/-- After an upsert some record carries the upserted entry's name. -/
theorem upsertCam_name_mem (e : CamEntry) (t : CamTable) :
    ∃ c ∈ upsertCam e t, c.cam_name = e.cam_name := by
  unfold upsertCam
  split
  · next hany =>
      rw [List.any_eq_true] at hany
      obtain ⟨x, hx, hbeq⟩ := hany
      refine ⟨_, List.mem_map_of_mem _ hx, ?_⟩
      rw [if_pos hbeq]
  · exact ⟨e, List.mem_append_right _ (List.mem_singleton.mpr rfl), rfl⟩

/-- An upsert never loses a camera name already in the table. -/
theorem upsertCam_keeps_name (e : CamEntry) (t : CamTable) (n : String)
    (h : ∃ c ∈ t, c.cam_name = n) : ∃ c ∈ upsertCam e t, c.cam_name = n := by
  unfold upsertCam
  obtain ⟨c, hc, hn⟩ := h
  split
  · by_cases hbeq : (c.cam_name == e.cam_name) = true
    · refine ⟨_, List.mem_map_of_mem _ hc, ?_⟩
      rw [if_pos hbeq]
      rw [beq_iff_eq] at hbeq
      rw [← hbeq, hn]
    · refine ⟨_, List.mem_map_of_mem _ hc, ?_⟩
      rw [if_neg hbeq]
      exact hn
  · exact ⟨c, List.mem_append_left _ hc, hn⟩

/-- Soundness of the camera-discovery fold: every produced record either
was already in the accumulator or is the entry of some stored state
file. -/
theorem fold_init_cams_mem (files : List String) : ∀ (acc : CamTable) (c : CamEntry),
    c ∈ files.foldl (fun t p => initTisCamera p t) acc →
    c ∈ acc ∨ ∃ p ∈ files, is_stored_state_file p = true ∧ c = mkCamEntry p := by
  induction files with
  | nil =>
      intro acc c hc
      left
      simpa using hc
  | cons q fs ih =>
      intro acc c hc
      rw [List.foldl_cons] at hc
      rcases ih _ c hc with hacc | ⟨p, hp, hsp, hcp⟩
      · unfold initTisCamera at hacc
        split at hacc
        · next hq =>
            rcases upsertCam_mem _ _ _ hacc with h | h
            · left; exact h
            · right; exact ⟨q, List.mem_cons_self _ _, hq, h⟩
        · left; exact hacc
      · right
        exact ⟨p, List.mem_cons_of_mem _ hp, hsp, hcp⟩

/-- The camera-discovery fold never loses a camera name. -/
theorem fold_keeps_name (files : List String) : ∀ (acc : CamTable) (n : String),
    (∃ c ∈ acc, c.cam_name = n) →
    ∃ c ∈ files.foldl (fun t p => initTisCamera p t) acc, c.cam_name = n := by
  induction files with
  | nil =>
      intro acc n h
      simpa using h
  | cons q fs ih =>
      intro acc n h
      rw [List.foldl_cons]
      apply ih
      unfold initTisCamera
      split
      · exact upsertCam_keeps_name _ _ _ h
      · exact h

/-- Completeness of the camera-discovery fold: every stored state file of
the folder contributes its camera name. -/
theorem fold_init_cams_names (files : List String) : ∀ (acc : CamTable) (p : String),
    p ∈ files → is_stored_state_file p = true →
    ∃ c ∈ files.foldl (fun t q => initTisCamera q t) acc,
      c.cam_name = cam_name_from_state_file p := by
  induction files with
  | nil =>
      intro acc p hp _
      simp at hp
  | cons q fs ih =>
      intro acc p hp hsp
      rw [List.foldl_cons]
      rcases List.mem_cons.mp hp with rfl | hp
      · apply fold_keeps_name
        unfold initTisCamera
        rw [if_pos hsp]
        exact upsertCam_name_mem (mkCamEntry p) acc
      · exact ih _ p hp hsp

/-- C2: after `reinitialize`, `has_session` is false and
`get_available_cameras` returns the whole rebuilt camera table: every
record has an empty `active_processes` map and is the entry of some state
file discovered in the configured folder, and conversely every discovered
state file is represented by its camera name. -/
theorem c2_reinit_state (cfg : Config) (db : DB) :
    has_session (reinit cfg db).session = false
    ∧ get_available_cameras (reinit cfg db).tis_cam_win = (reinit cfg db).tis_cam_win
    ∧ (∀ c ∈ (reinit cfg db).tis_cam_win,
        c.active_processes = []
        ∧ ∃ p ∈ cfg.state_files, is_stored_state_file p = true ∧ c = mkCamEntry p)
    ∧ (∀ p ∈ cfg.state_files, is_stored_state_file p = true →
        ∃ c ∈ (reinit cfg db).tis_cam_win, c.cam_name = cam_name_from_state_file p) := by
  have htis : (reinit cfg db).tis_cam_win
      = cfg.state_files.foldl (fun t p => initTisCamera p t) [] := rfl
  have hmem : ∀ c ∈ (reinit cfg db).tis_cam_win,
      c.active_processes = []
      ∧ ∃ p ∈ cfg.state_files, is_stored_state_file p = true ∧ c = mkCamEntry p := by
    intro c hc
    rw [htis] at hc
    rcases fold_init_cams_mem cfg.state_files [] c hc with h | ⟨p, hp, hsp, hcp⟩
    · simp at h
    · subst hcp
      exact ⟨rfl, ⟨p, hp, hsp, rfl⟩⟩
  refine ⟨rfl, ?_, hmem, ?_⟩
  · unfold get_available_cameras
    rw [List.filter_eq_self]
    intro c hc
    rw [(hmem c hc).1]
    rfl
  · intro p hp hsp
    rw [htis]
    exact fold_init_cams_names cfg.state_files [] p hp hsp

/-- Dropping a prefix of elements that all satisfy the predicate. -/
theorem dropWhile_append_all {α : Type} (p : α → Bool) (l1 l2 : List α)
    (h : ∀ x ∈ l1, p x = true) :
    (l1 ++ l2).dropWhile p = l2.dropWhile p := by
  induction l1 with
  | nil => rfl
  | cons a l ih =>
      rw [List.cons_append, List.dropWhile_cons, if_pos (h a (List.mem_cons_self _ _))]
      exact ih fun x hx => h x (List.mem_cons_of_mem _ hx)

/-- `dropWhile` is the identity exactly when the head (if any) fails the
predicate. -/
theorem dropWhile_eq_self_head {α : Type} (p : α → Bool) (l : List α) :
    l.dropWhile p = l ↔ ∀ c, l.head? = some c → p c = false := by
  cases l with
  | nil => simp
  | cons a l =>
      rw [List.dropWhile_cons]
      by_cases hpa : p a = true
      · rw [if_pos hpa]
        constructor
        · intro h
          exfalso
          have hlen := congrArg List.length h
          have hle : (l.dropWhile p).length ≤ l.length := (List.dropWhile_sublist p).length_le
          simp at hlen
          omega
        · intro h
          have := h a rfl
          rw [hpa] at this
          cases this
      · rw [if_neg hpa]
        have hpa' : p a = false := by
          cases h' : p a
          · rfl
          · exact absurd h' hpa
        constructor
        · intro _ c hc
          rw [List.head?_cons, Option.some.injEq] at hc
          rw [← hc]
          exact hpa'
        · intro _
          rfl

/-- `Path(s).name` is the identity on separator-free strings. -/
theorem pathName_no_sep (s : String) (h : ∀ c ∈ s.data, sepChar c = false) :
    pathName s = s := by
  unfold pathName
  have htake : s.data.reverse.takeWhile (fun c => !sepChar c) = s.data.reverse := by
    rw [List.takeWhile_eq_self_iff]
    intro c hc
    rw [List.mem_reverse] at hc
    simp [h c hc]
  rw [htake, List.reverse_reverse]

/-- The round trip equals `rstrip` of the character set of
`"_state_file"` applied to the original name. -/
theorem roundtrip_eq_rstrip (name : String)
    (hsep : ∀ c ∈ name.data, sepChar c = false) :
    cam_name_from_state_file (state_file_from_cam_name name)
      = rstrip stripSet name := by
  unfold cam_name_from_state_file state_file_from_cam_name
  have hall : ∀ c ∈ (name ++ "_state_file").data, sepChar c = false := by
    intro c hc
    have : (name ++ "_state_file").data = name.data ++ "_state_file".data := rfl
    rw [this, List.mem_append] at hc
    rcases hc with hc | hc
    · exact hsep c hc
    · have hsuf : ∀ x ∈ "_state_file".data, sepChar x = false := by decide
      exact hsuf c hc
  rw [pathName_no_sep _ hall]
  unfold rstrip
  have hdata : (name ++ "_state_file").data = name.data ++ "_state_file".data := rfl
  rw [hdata, List.reverse_append]
  rw [dropWhile_append_all _ _ _ (by decide)]

/-- `rstrip` is the identity exactly when the last character (if any) is
outside the stripped set. -/
theorem rstrip_eq_self_iff (name : String) :
    rstrip stripSet name = name
      ↔ ∀ c, name.data.getLast? = some c → stripSet.contains c = false := by
  unfold rstrip
  rw [String.ext_iff]
  have hdata : (String.mk ((name.data.reverse.dropWhile fun c => stripSet.contains c).reverse)).data
      = (name.data.reverse.dropWhile fun c => stripSet.contains c).reverse := rfl
  rw [hdata, List.reverse_eq_iff]
  rw [dropWhile_eq_self_head]
  simp only [List.head?_reverse]

/-- C9: the camera-name/state-file round trip returns the name with its
maximal trailing run of characters from the set of `"_state_file"`
removed (because `rstrip` strips a character SET, not a suffix), so it is
the identity exactly when the name is empty or its last character is
outside that set; in particular "camtest" comes back as "cam". -/
theorem c9_state_file_roundtrip (name : String)
    (hsep : ∀ c ∈ name.data, sepChar c = false) :
    cam_name_from_state_file (state_file_from_cam_name name) = rstrip stripSet name
    ∧ (cam_name_from_state_file (state_file_from_cam_name name) = name
        ↔ ∀ c, name.data.getLast? = some c → stripSet.contains c = false)
    ∧ cam_name_from_state_file (state_file_from_cam_name "camtest") = "cam" := by
  have h1 := roundtrip_eq_rstrip name hsep
  refine ⟨h1, ?_, by decide⟩
  rw [h1]
  exact rstrip_eq_self_iff name

/-- Witness for C9 at the name "camtest" (last character in the stripped
set, so the round trip shortens it to "cam"). -/
theorem c9_state_file_roundtrip_witness :
    cam_name_from_state_file (state_file_from_cam_name "camtest") = rstrip stripSet "camtest"
    ∧ (cam_name_from_state_file (state_file_from_cam_name "camtest") = "camtest"
        ↔ ∀ c, "camtest".data.getLast? = some c → stripSet.contains c = false)
    ∧ cam_name_from_state_file (state_file_from_cam_name "camtest") = "cam" :=
  c9_state_file_roundtrip "camtest" (by decide)

/-- C6: starting from an empty session table, inserting block "01" with
`running = true` and then block "02" with `running = true` yields a state
where `get_active_block` returns the "02" block and the stored "01" record
has `running = false`. -/
theorem c6_two_blocks_scenario :
    get_active_block demoSession = some demoB2
    ∧ demoB2.block_id = some "02"
    ∧ (demoSession.find? (fun b => b.block_id == some "01")).map (fun b => b.running)
        = some (some false) := by
  decide

end IMUApp
